import Mathlib

/-!
Verification of the news-processing pipeline of this repository.

The development shallowly embeds the two core modules:

* `src/processor/main_parallel.py` — text normalisation (`clean_text`),
  keyword scoring (`count_keywords`), per-document processing
  (`process_document`), chunked file reading (`process_file_chunk`) and
  the parallel dispatcher (`process_files_parallel`);
* `src/processor/main.py` — the sequential processor's normaliser
  (`clean_text_seq`) and its substring-based scoring loop (`mainPyHits`);
* `src/analyzer/main.py` — daily aggregation (`aggregate_by_date`),
  merging with the external COLCAP series (`merge_with_colcap`) and the
  metrics / correlation engine (`calculate_metrics`).

Machine floats of the source are modelled exactly: integer columns as
`Nat`/`Int`, real-valued columns as `Rat` (every number reaching the
correlation code is a finite decimal, so rational arithmetic is exact),
and the one genuinely irrational quantity — the Pearson coefficient
`cov / sqrt (Sxx * Syy)` — symbolically as the pair `(cov, Sxx * Syy)`
(`CorrFloat`), which determines the float and in particular whether the
reported value is `0.0` or `NaN`.
-/

/-! ### Text normaliser (`clean_text`, src/processor/main_parallel.py lines 58-71) -/

/-- Python `str.lower` restricted to the characters appearing in this
development: ASCII case mapping plus the accented Latin letters of the
Spanish corpus. -/
def pyLowerChar (c : Char) : Char :=
  if c = 'Á' then 'á' else if c = 'É' then 'é' else if c = 'Í' then 'í'
  else if c = 'Ó' then 'ó' else if c = 'Ú' then 'ú' else if c = 'Ñ' then 'ñ'
  else if c = 'Ü' then 'ü' else c.toLower

/-- The `unidecode` transliteration table, restricted to the codepoints
relevant to this development: ASCII maps to itself; accented Spanish
letters map to the bare letter; any other codepoint is given the empty
transliteration (as `unidecode` does for unmapped codepoints). -/
def unidecodeChar (c : Char) : String :=
  if c.toNat < 128 then String.singleton c
  else if c = 'á' then "a" else if c = 'é' then "e" else if c = 'í' then "i"
  else if c = 'ó' then "o" else if c = 'ú' then "u" else if c = 'ñ' then "n"
  else if c = 'ü' then "u" else ""

/-- The `unidecode` transliteration applied to a whole string. -/
def unidecodeStr (s : String) : String :=
  String.join (s.data.map unidecodeChar)

/-- Python `str.isalnum` on the ASCII range produced by `unidecodeStr`. -/
def pyIsAlnum (c : Char) : Bool := c.isAlphanum

/-- Python `str.isspace` for the whitespace characters of this corpus
(space, tab, carriage return, newline). -/
def pyIsSpace (c : Char) : Bool := c.isWhitespace

/-- Embedding of `clean_text` of src/processor/main_parallel.py:
lower-case and transliterate, then keep alphanumeric and whitespace
characters and replace every other character by a space. -/
def clean_text (text : String) : String :=
  let t := unidecodeStr (String.mk (text.data.map pyLowerChar))
  String.mk (t.data.map (fun c => if pyIsAlnum c || pyIsSpace c then c else ' '))

/-! ### Keyword scorer (`count_keywords`, src/processor/main_parallel.py lines 74-87) -/

/-- The module-level keyword list shared by both processors
(src/processor/main_parallel.py lines 24-46, src/processor/main.py lines 5-27). -/
def KEYWORDS : List String :=
  ["inflacion", "ipc", "pib", "crecimiento", "recesion",
   "desempleo", "consumo",
   "tasa de interes", "tasas",
   "banco de la republica", "fed",
   "bolsa", "acciones", "mercado",
   "colcap", "volatilidad",
   "dolar", "trm", "divisas",
   "petroleo", "brent", "oro",
   "banco", "credito", "inversion",
   "crisis", "riesgo"]

/-- Python `str.split()` (no separator argument): split on runs of
whitespace, discarding empty tokens.  `acc` holds the reversed current
token. -/
def wsTokens : List Char → List Char → List (List Char)
  | [], acc => if acc.isEmpty then [] else [acc.reverse]
  | c :: cs, acc =>
    if pyIsSpace c then
      if acc.isEmpty then wsTokens cs [] else acc.reverse :: wsTokens cs []
    else wsTokens cs (c :: acc)

/-- The split of the cleaned text into tokens, as a list of strings. -/
def pySplit (s : String) : List String :=
  (wsTokens s.data []).map String.mk

/-- Embedding of `count_keywords` of src/processor/main_parallel.py:
clean the text, split it into words, and count the words that are
members of the keyword list. -/
def count_keywords (text : String) (keywords : List String) : Nat :=
  let cleaned := clean_text text
  let words := pySplit cleaned
  words.countP (fun word => keywords.contains word)

/-! ### The sequential processor's normaliser and scorer (src/processor/main.py) -/

/-- NFKD decomposition followed by dropping combining marks, restricted to
the characters of this development (accented Latin letters lose their
accent; ASCII is fixed). -/
def nfkdStripChar (c : Char) : Char :=
  if c = 'á' then 'a' else if c = 'é' then 'e' else if c = 'í' then 'i'
  else if c = 'ó' then 'o' else if c = 'ú' then 'u' else if c = 'ñ' then 'n'
  else if c = 'ü' then 'u' else c

/-- Python regex class `\w` (word character): alphanumeric or underscore. -/
def pyIsWordChar (c : Char) : Bool := pyIsAlnum c || c = '_'

/-- Collapse runs of whitespace to a single space
(`re.sub(r"\s+", " ", text)`); the flag records whether the previous
character belonged to a whitespace run. -/
def collapseWSAux : Bool → List Char → List Char
  | _, [] => []
  | prevWS, c :: cs =>
    if pyIsSpace c then
      if prevWS then collapseWSAux true cs else ' ' :: collapseWSAux true cs
    else c :: collapseWSAux false cs

/-- The whitespace-run collapse applied to a character list. -/
def collapseWS (l : List Char) : List Char := collapseWSAux false l

/-- Python `str.strip()`: drop leading and trailing whitespace. -/
def pyStrip (l : List Char) : List Char :=
  ((l.dropWhile pyIsSpace).reverse.dropWhile pyIsSpace).reverse

/-- Embedding of `clean_text` of src/processor/main.py (lines 34-42):
lower-case, NFKD decompose and drop combining marks, delete characters
that are neither word characters nor whitespace, collapse whitespace
runs, strip the ends. -/
def clean_text_seq (text : String) : String :=
  let t := (text.data.map pyLowerChar).map nfkdStripChar
  let t := t.filter (fun c => pyIsWordChar c || pyIsSpace c)
  String.mk (pyStrip (collapseWS t))

/-- True when the first list is an initial segment of the second (the
initial-segment test used by the occurrence counter below). -/
def leadsWith : List Char → List Char → Bool
  | [], _ => true
  | _ :: _, [] => false
  | c :: k, d :: s => c == d && leadsWith k s

/-- Fuel-driven scan counting non-overlapping occurrences of the pattern
`k` left to right, advancing past a match by the pattern length; the fuel
bounds the recursion and `s.length` fuel is always enough because every
step consumes at least one character. -/
def countOccsF (k : List Char) : Nat → List Char → Nat
  | _, [] => 0
  | 0, _ :: _ => 0
  | fuel + 1, c :: tail =>
    if k ≠ [] ∧ leadsWith k (c :: tail) then
      countOccsF k fuel (tail.drop (k.length - 1)) + 1
    else countOccsF k fuel tail

/-- Python `s.count(k)`: the number of non-overlapping occurrences of `k`
in `s` (for the degenerate empty pattern, `len(s) + 1`). -/
def pyCount (s k : String) : Nat :=
  if k.data.isEmpty then s.data.length + 1
  else countOccsF k.data s.data.length s.data

/-- The scoring expression of the sequential processor
(src/processor/main.py line 75): `text = clean_text(doc.get("text", ""));
hits = sum(text.count(k) for k in KEYWORDS)`. -/
def mainPyHits (text : String) (keywords : List String) : Nat :=
  (keywords.map (fun k => pyCount (clean_text_seq text) k)).sum

/-! ### Document processor (src/processor/main_parallel.py lines 90-114) -/

/-- A JSON value stored in one field of a decoded object: a string, the
JSON null, or any other non-string JSON value (number, boolean, array,
nested object).  The distinction the processor's error handling depends
on is string versus non-string: Python string methods raise on every
non-string value, while a value that is merely stored is carried through
untouched, so the two non-string constructors behave identically in every
path the source exercises. -/
inductive JVal where
  | jstr : String → JVal
  | jnull : JVal
  | jother : JVal
deriving DecidableEq

/-- A raw document as decoded from one JSON object line: the three fields
the processor reads, each possibly missing (`doc.get`), and each possibly
holding a non-string JSON value when present. -/
structure RawDocument where
  id : Option JVal
  date : Option JVal
  text : Option JVal
deriving DecidableEq

/-- The outcome of `json.loads` on a line that parses: either a JSON
value that is not an object (on which `doc.get` raises, caught by
`process_document`) or an object with the fields of interest. -/
inductive JsonVal where
  | nonObj : JsonVal
  | obj : RawDocument → JsonVal
deriving DecidableEq

/-- One line of a JSONL file as seen by the reader: either
`json.loads` raises (`bad`) or yields a value. -/
inductive JsonLine where
  | bad : JsonLine
  | val : JsonVal → JsonLine
deriving DecidableEq

/-- A processed record, one row of the processor's output table
(src/processor/main_parallel.py lines 105-111); `date` and `doc_id` carry
the raw field values of the document, whatever their JSON type. -/
structure ProcRecord where
  date : Option JVal
  doc_id : Option JVal
  keyword_hits : Nat
  text_length : Nat
  word_count : Nat
deriving DecidableEq

/-- Embedding of `process_document` of src/processor/main_parallel.py: on
a dict it reads `text` (the default empty string applies only when the
key is absent) and builds the record; its `try` catches the attribute
error raised either by `doc.get` on a non-dict JSON value or by the
`.lower()` call of `clean_text` on a present non-string `text` value, and
yields `None` (the document is skipped).  `date` and `id` are stored
without being touched, so they pass through whatever value they hold. -/
def process_document (v : JsonVal) (keywords : List String) : Option ProcRecord :=
  match v with
  | .nonObj => none
  | .obj doc =>
    match doc.text.getD (JVal.jstr "") with
    | JVal.jstr text =>
      some { date := doc.date
             doc_id := doc.id
             keyword_hits := count_keywords text keywords
             text_length := text.length
             word_count := (pySplit (clean_text text)).length }
    | _ => none

/-! ### Chunked file reader (src/processor/main_parallel.py lines 117-162) -/

/-- The inner loop `for document in chunk: result = process_document(...);
if result: results.append(result)` (a produced dict is never falsy). -/
def processChunkList (keywords : List String) (chunk : List JsonVal) : List ProcRecord :=
  chunk.filterMap (fun d => process_document d keywords)

/-- The line loop of `process_file_chunk`: undecodable lines are skipped,
decoded values accumulate in `chunk`, which is flushed through the
document processor whenever it reaches `chunkSize` and once more at
end of file. -/
def chunkAux (keywords : List String) (chunkSize : Nat) :
    List JsonLine → List ProcRecord → List JsonVal → List ProcRecord
  | [], results, chunk => results ++ processChunkList keywords chunk
  | .bad :: rest, results, chunk => chunkAux keywords chunkSize rest results chunk
  | .val v :: rest, results, chunk =>
    let chunk2 := chunk ++ [v]
    if chunkSize ≤ chunk2.length then
      chunkAux keywords chunkSize rest (results ++ processChunkList keywords chunk2) []
    else chunkAux keywords chunkSize rest results chunk2

/-- The body of `process_file_chunk` applied to the decoded lines of a readable file. -/
def processFileContents (keywords : List String) (chunkSize : Nat)
    (lines : List JsonLine) : List ProcRecord :=
  chunkAux keywords chunkSize lines [] []

/-- A file handed to a worker: `none` when `open`/read raises (missing or
unreadable file), otherwise the decoded lines. -/
abbrev FileInput : Type := Option (List JsonLine)

/-- Embedding of `process_file_chunk` of src/processor/main_parallel.py: the outer
`try` converts any open/read error into an empty result list. -/
def process_file_chunk (keywords : List String) (chunkSize : Nat) :
    FileInput → List ProcRecord
  | none => []
  | some lines => processFileContents keywords chunkSize lines

/-- Embedding of `process_files_parallel` of src/processor/main_parallel.py lines
165-196: `pool.map` returns the per-file result lists in the order of the
input file list, and the comprehension flattens them. -/
def process_files_parallel (keywords : List String) (chunkSize : Nat)
    (files : List FileInput) : List ProcRecord :=
  (files.map (process_file_chunk keywords chunkSize)).flatten

/-- The JSON values carried by the decodable lines of a file, in line
order. -/
def lineDocs (lines : List JsonLine) : List JsonVal :=
  lines.filterMap (fun l => match l with | .bad => none | .val v => some v)

/-! ### Analyzer data model (src/analyzer/main.py) -/

/-- One row of the processed-results table as the analyzer loads it
(`data/processed/results.csv`): the columns `aggregate_by_date` touches.
A missing CSV cell is `none`. -/
structure ARow where
  date : Option String
  doc_id : Option String
  keyword_hits : Int
deriving DecidableEq

/-- One row of the daily aggregate
(src/analyzer/main.py lines 118-123). -/
structure AggRow where
  date : String
  docs_count : Nat
  total_keyword_hits : Int
deriving DecidableEq

/-- One row of the external COLCAP series (`data/indicators/COLCAP.csv`
after `load_colcap_data` has checked the `colcap_close` column). -/
structure ColRow where
  date : String
  colcap_close : Rat
deriving DecidableEq

/-- One row of the merged daily table. -/
structure MergedRow where
  date : String
  docs_count : Nat
  total_keyword_hits : Int
  colcap_close : Option Rat
deriving DecidableEq

/-- The merged data frame: its rows together with whether the
`colcap_close` column is present at all (`merge_with_colcap` returns the
aggregate unchanged — without the column — when the COLCAP input is
empty). -/
structure MergedDF where
  hasColcap : Bool
  rows : List MergedRow
deriving DecidableEq

/-! ### Daily aggregator (`aggregate_by_date`, src/analyzer/main.py lines 108-135) -/

/-- The distinct group keys of `df.groupby('date')`, ascending (pandas
sorts group keys and drops null keys). -/
def sortedDates (rows : List ARow) : List String :=
  (List.insertionSort (· ≤ ·) (rows.filterMap (fun r => r.date))).dedup

/-- Embedding of `aggregate_by_date`: group by `date`; `docs_count` is
the count of non-null `doc_id` cells in the group (pandas count semantics)
and `total_keyword_hits` the sum of the group column `keyword_hits`. -/
def aggregate_by_date (rows : List ARow) : List AggRow :=
  (sortedDates rows).map (fun d =>
    { date := d
      docs_count :=
        ((rows.filter (fun r => r.date == some d)).filter
          (fun r => r.doc_id.isSome)).length
      total_keyword_hits :=
        ((rows.filter (fun r => r.date == some d)).map
          (fun r => r.keyword_hits)).sum })

/-! ### Series merger (`merge_with_colcap`, src/analyzer/main.py lines 137-166) -/

/-- The pandas left merge of the daily aggregate with the COLCAP frame on
the date key: every aggregate row, in order, paired with each matching
COLCAP row (null `colcap_close` when there is no match). -/
def leftMergeRows (agg : List AggRow) (colcap : List ColRow) : List MergedRow :=
  agg.flatMap (fun a =>
    match colcap.filter (fun c => c.date == a.date) with
    | [] => [{ date := a.date, docs_count := a.docs_count,
               total_keyword_hits := a.total_keyword_hits, colcap_close := none }]
    | ms => ms.map (fun m =>
        { date := a.date, docs_count := a.docs_count,
          total_keyword_hits := a.total_keyword_hits,
          colcap_close := some m.colcap_close }))

/-- Embedding of `merge_with_colcap`: an empty aggregate yields an empty frame; an
empty COLCAP input returns the aggregate unchanged (no `colcap_close`
column); otherwise the left merge on `date`. -/
def merge_with_colcap (daily_agg : List AggRow) (df_colcap : List ColRow) : MergedDF :=
  if daily_agg.isEmpty then { hasColcap := false, rows := [] }
  else if df_colcap.isEmpty then
    { hasColcap := false
      rows := daily_agg.map (fun a =>
        { date := a.date, docs_count := a.docs_count,
          total_keyword_hits := a.total_keyword_hits, colcap_close := none }) }
  else { hasColcap := true, rows := leftMergeRows daily_agg df_colcap }

/-! ### Correlation and metrics engine (`calculate_metrics`, src/analyzer/main.py lines 168-208) -/

/-- The float produced by the correlation branch, represented exactly:
`CorrFloat.nanAsZero` is the literal `0.0` substituted for a NaN
coefficient, and `CorrFloat.fin cov den` is the finite value
`cov / sqrt den` (with `den > 0`). -/
inductive CorrFloat where
  | nanAsZero : CorrFloat
  | fin : Rat → Rat → CorrFloat
deriving DecidableEq

/-- Arithmetic mean of a list of rationals (`Series.mean`). -/
def listMean (l : List Rat) : Rat := l.sum / (l.length : Rat)

/-- Sum of squared deviations from the mean (`n * variance`). -/
def sqDev (l : List Rat) : Rat :=
  (l.map (fun x => (x - listMean l) ^ 2)).sum

/-- Sum of products of deviations (`n * covariance`). -/
def crossDev (xs ys : List Rat) : Rat :=
  ((xs.zip ys).map (fun p => (p.1 - listMean xs) * (p.2 - listMean ys))).sum

/-- The pandas Pearson correlation of the valid keyword-hit and close
columns, followed by the NaN substitution of the source (a NaN
coefficient is replaced by the float zero): the coefficient
`crossDev / sqrt (sqDev * sqDev)` is NaN exactly when a series has zero
variance. -/
def reportedCorrelation (xs ys : List Rat) : CorrFloat :=
  if sqDev xs * sqDev ys = 0 then CorrFloat.nanAsZero
  else CorrFloat.fin (crossDev xs ys) (sqDev xs * sqDev ys)

/-- The metrics report: a key is `none` exactly when `calculate_metrics`
does not put it in the returned dict. -/
structure MetricsReport where
  total_documents : Option Nat
  total_keywords : Option Int
  date_range : Option (String × String)
  days_analyzed : Option Nat
  average_docs_per_day : Option Rat
  average_keywords_per_day : Option Rat
  correlation_keywords_colcap : Option CorrFloat
  average_colcap : Option Rat
  colcap_min : Option Rat
  colcap_max : Option Rat
  days_with_colcap : Option Nat
deriving DecidableEq

/-- The empty dict returned for an empty frame. -/
def emptyReport : MetricsReport :=
  { total_documents := none, total_keywords := none, date_range := none,
    days_analyzed := none, average_docs_per_day := none,
    average_keywords_per_day := none, correlation_keywords_colcap := none,
    average_colcap := none, colcap_min := none, colcap_max := none,
    days_with_colcap := none }

/-- Embedding of `calculate_metrics`: an empty frame yields the empty
dict; otherwise the totals
are computed, and the correlation block runs only when the
`colcap_close` column exists and at least two rows survive
`dropna(subset=['colcap_close'])`. -/
def calculate_metrics (df : MergedDF) : MetricsReport :=
  if df.rows.isEmpty then emptyReport
  else
    let rows := df.rows
    let base : MetricsReport :=
      { total_documents := some ((rows.map (fun r => r.docs_count)).sum)
        total_keywords := some ((rows.map (fun r => r.total_keyword_hits)).sum)
        date_range :=
          match (rows.map (fun r => r.date)).min?, (rows.map (fun r => r.date)).max? with
          | some lo, some hi => some (lo, hi)
          | _, _ => none
        days_analyzed := some rows.length
        average_docs_per_day :=
          some (listMean (rows.map (fun r => (r.docs_count : Rat))))
        average_keywords_per_day :=
          some (listMean (rows.map (fun r => (r.total_keyword_hits : Rat))))
        correlation_keywords_colcap := none, average_colcap := none,
        colcap_min := none, colcap_max := none, days_with_colcap := none }
    if df.hasColcap then
      let valid := rows.filter (fun r => r.colcap_close.isSome)
      if 2 ≤ valid.length then
        let xs := valid.map (fun r => (r.total_keyword_hits : Rat))
        let ys := valid.filterMap (fun r => r.colcap_close)
        { base with
          correlation_keywords_colcap := some (reportedCorrelation xs ys)
          average_colcap := some (listMean ys)
          colcap_min := ys.min?
          colcap_max := ys.max?
          days_with_colcap := some valid.length }
      else base
    else base

/-- The character set `[a-z0-9 ]` named by the specification's normaliser
contract (for comparison with what `clean_text` actually produces). -/
def claimCharOk (c : Char) : Bool :=
  ('a' ≤ c && c ≤ 'z') || ('0' ≤ c && c ≤ '9') || c = ' '

/-! ## Helper lemmas -/

/-- Tokens produced by Python `str.split()` contain no whitespace
character. -/
theorem wsTokens_no_ws (cs : List Char) :
    ∀ acc : List Char, (∀ a ∈ acc, pyIsSpace a = false) →
      ∀ tok ∈ wsTokens cs acc, ∀ ch ∈ tok, pyIsSpace ch = false := by
  induction cs with
  | nil =>
    intro acc hacc tok htok ch hch
    simp only [wsTokens] at htok
    by_cases h : acc.isEmpty
    · simp [h] at htok
    · simp [h] at htok
      subst htok
      exact hacc ch (List.mem_reverse.mp hch)
  | cons c cs ih =>
    intro acc hacc tok htok ch hch
    simp only [wsTokens] at htok
    by_cases hws : pyIsSpace c
    · simp only [hws, if_true] at htok
      by_cases h : acc.isEmpty
      · simp [h] at htok
        exact ih [] (by simp) tok htok ch hch
      · simp [h] at htok
        rcases htok with htok | htok
        · subst htok
          exact hacc ch (List.mem_reverse.mp hch)
        · exact ih [] (by simp) tok htok ch hch
    · simp only [hws, if_false, Bool.false_eq_true] at htok
      refine ih (c :: acc) ?_ tok htok ch hch
      intro a ha
      rcases List.mem_cons.mp ha with rfl | ha
      · simpa using hws
      · exact hacc a ha

/-- A keyword containing a space never equals a whitespace-free token, so
membership tests against the keyword list and against its space-free
sublist agree on tokens. -/
theorem contains_eq_of_no_space (w : String)
    (hw : ∀ ch ∈ w.data, pyIsSpace ch = false) (kws : List String) :
    kws.contains w = (kws.filter (fun k => !(k.data.contains ' '))).contains w := by
  have hsp : (' ' : Char) ∉ w.data := fun hsp => by
    simpa [pyIsSpace] using hw ' ' hsp
  apply Bool.eq_iff_iff.mpr
  constructor
  · intro h
    have hmem : w ∈ kws := by simpa using h
    have : w ∈ kws.filter (fun k => !(k.data.contains ' ')) := by
      refine List.mem_filter.mpr ⟨hmem, ?_⟩
      simpa using hsp
    simpa using this
  · intro h
    have hmem : w ∈ kws.filter (fun k => !(k.data.contains ' ')) := by simpa using h
    simpa using (List.mem_filter.mp hmem).1

/-- The line loop of the chunked reader is, for any chunk size, the
document processor folded over the decodable lines in order. -/
theorem chunkAux_eq (kws : List String) (c : Nat) (rest : List JsonLine) :
    ∀ (results : List ProcRecord) (chunk : List JsonVal),
      chunkAux kws c rest results chunk =
        results ++ processChunkList kws chunk ++ processChunkList kws (lineDocs rest) := by
  induction rest with
  | nil =>
    intro results chunk
    simp [chunkAux, lineDocs, processChunkList]
  | cons line rest ih =>
    intro results chunk
    cases line with
    | bad =>
      simp only [chunkAux, ih, lineDocs, List.filterMap_cons]
    | val v =>
      simp only [chunkAux]
      by_cases hlen : c ≤ (chunk ++ [v]).length
      · simp only [hlen, if_true, ih]
        simp [processChunkList, lineDocs, List.filterMap_append, List.filterMap_cons]
        cases process_document v kws <;> simp
      · simp only [hlen, if_false, ih]
        simp [processChunkList, lineDocs, List.filterMap_append, List.filterMap_cons]
        cases process_document v kws <;> simp

/-- The chunked reader over a readable file's lines, for any chunk size. -/
theorem processFileContents_eq (kws : List String) (c : Nat) (lines : List JsonLine) :
    processFileContents kws c lines = processChunkList kws (lineDocs lines) := by
  simp [processFileContents, chunkAux_eq, processChunkList]

/-! ## Claim C1 — keyword scoring policy -/

/-- C1 (counterexample): on the text "banco de la republica" with the
configured keyword list, the parallel processor's score is 1 (only the
token "banco" matches), while the substring policy demanded by the claim
— implemented by the sequential processor's `sum(text.count(k))` — gives
2 (the phrase keyword plus "banco").  The phrase occurrence therefore
does not contribute to the score, contradicting the claim. -/
theorem claim1_counterexample :
    count_keywords "banco de la republica" KEYWORDS = 1 ∧
    mainPyHits "banco de la republica" KEYWORDS = 2 := by
  exact ⟨by decide, by decide⟩

/-- C1 (amended): the parallel processor's keyword score tokenizes first —
it counts whitespace-delimited tokens of the normalized text that exactly
equal a keyword — so keywords containing a space can never match: the
score over any keyword list equals the score over that list with all
phrase keywords removed. -/
theorem count_keywords_drops_phrase_keywords (text : String) (kws : List String) :
    count_keywords text kws =
      count_keywords text (kws.filter (fun k => !(k.data.contains ' '))) := by
  unfold count_keywords
  apply List.countP_congr
  intro w hw
  have htok : ∀ ch ∈ w.data, pyIsSpace ch = false := by
    rcases List.mem_map.mp hw with ⟨tok, htokmem, rfl⟩
    intro ch hch
    refine wsTokens_no_ws _ [] (by simp) tok htokmem ch ?_
    simpa using hch
  exact Bool.eq_iff_iff.mp (contains_eq_of_no_space w htok kws)

/-! ## Claim C3 — no date validation in the document processor -/

/-- C3 (counterexample): a document with a missing `date` field is not
dropped: `process_document` emits a record whose date is null. -/
theorem claim3_counterexample :
    process_document
        (.obj { id := some (JVal.jstr "x"), date := none,
                text := some (JVal.jstr "hola") }) KEYWORDS =
      some { date := none, doc_id := some (JVal.jstr "x"), keyword_hits := 0,
             text_length := 4, word_count := 1 } := by
  decide

/-- C3 (amended): `process_document` performs no date validation.  A
document is skipped only when its JSON value is not an object, or when its
`text` field holds a present non-string value (then the `.lower()` call of
`clean_text` raises inside the `try`); every other object document —
whatever its `date` — yields exactly one record whose `date` and `doc_id`
are the raw field values (null when the field is missing), and no
document aborts the file or batch. -/
theorem process_document_no_date_validation :
    (∀ (d : RawDocument) (kws : List String) (t : String),
      d.text = some (JVal.jstr t) →
      process_document (.obj d) kws =
        some { date := d.date, doc_id := d.id,
               keyword_hits := count_keywords t kws,
               text_length := t.length,
               word_count := (pySplit (clean_text t)).length }) ∧
    (∀ (d : RawDocument) (kws : List String),
      d.text = none →
      process_document (.obj d) kws =
        some { date := d.date, doc_id := d.id, keyword_hits := 0,
               text_length := 0, word_count := 0 }) ∧
    (∀ (d : RawDocument) (kws : List String),
      (d.text = some JVal.jnull ∨ d.text = some JVal.jother) →
      process_document (.obj d) kws = none) ∧
    (∀ kws : List String, process_document .nonObj kws = none) := by
  refine ⟨?_, ?_, ?_, fun kws => rfl⟩
  · rintro ⟨i, dt, tx⟩ kws t rfl
    rfl
  · rintro ⟨i, dt, tx⟩ kws rfl
    rfl
  · rintro ⟨i, dt, tx⟩ kws (rfl | rfl) <;> rfl

/-- Witness for C3 at concrete documents: a string text with a missing
date yields a record with a null date; a missing text yields an empty
record; a JSON-null text is skipped. -/
theorem process_document_no_date_validation_witness :
    process_document
        (.obj { id := some (JVal.jstr "x"), date := none,
                text := some (JVal.jstr "hola") }) KEYWORDS =
      some { date := none, doc_id := some (JVal.jstr "x"),
             keyword_hits := count_keywords "hola" KEYWORDS,
             text_length := ("hola" : String).length,
             word_count := (pySplit (clean_text "hola")).length } ∧
    process_document
        (.obj { id := none, date := some (JVal.jstr "2024-01-01"),
                text := none }) KEYWORDS =
      some { date := some (JVal.jstr "2024-01-01"), doc_id := none,
             keyword_hits := 0, text_length := 0, word_count := 0 } ∧
    process_document
        (.obj { id := none, date := some (JVal.jstr "2024-01-01"),
                text := some JVal.jnull }) KEYWORDS = none :=
  ⟨process_document_no_date_validation.1 _ KEYWORDS "hola" rfl,
   process_document_no_date_validation.2.1 _ KEYWORDS rfl,
   process_document_no_date_validation.2.2.1 _ KEYWORDS (Or.inl rfl)⟩

/-! ## Claim C5 — chunk boundaries are invisible -/

/-- C5: the chunked reader produces the same record list under any two
chunk sizes; chunk boundaries do not affect the output. -/
theorem chunk_size_invariance (lines : List JsonLine) (kws : List String)
    (c1 c2 : Nat) (h1 : 1 ≤ c1) (h2 : 1 ≤ c2) :
    processFileContents kws c1 lines = processFileContents kws c2 lines := by
  rw [processFileContents_eq, processFileContents_eq]

/-- Witness for C5 at a concrete file with four lines (one undecodable,
one non-object) and chunk sizes 1 and 3. -/
theorem chunk_size_invariance_witness :
    1 ≤ 1 ∧ 1 ≤ 3 ∧
      processFileContents KEYWORDS 1
          [JsonLine.val (.obj
             { id := some (JVal.jstr "1"), date := some (JVal.jstr "2024-01-01"),
               text := some (JVal.jstr "hola") }),
           JsonLine.bad, JsonLine.val .nonObj,
           JsonLine.val (.obj
             { id := some (JVal.jstr "2"), date := some (JVal.jstr "2024-01-02"),
               text := some (JVal.jstr "sube el dolar") })] =
        processFileContents KEYWORDS 3
          [JsonLine.val (.obj
             { id := some (JVal.jstr "1"), date := some (JVal.jstr "2024-01-01"),
               text := some (JVal.jstr "hola") }),
           JsonLine.bad, JsonLine.val .nonObj,
           JsonLine.val (.obj
             { id := some (JVal.jstr "2"), date := some (JVal.jstr "2024-01-02"),
               text := some (JVal.jstr "sube el dolar") })] :=
  ⟨by decide, by decide,
    chunk_size_invariance _ KEYWORDS 1 3 (by decide) (by decide)⟩

/-! ## Claim C7 — the normaliser's output alphabet -/

/-- C7 (counterexample): `clean_text` preserves tab characters (any
whitespace character is kept verbatim), so its output is not confined to
`[a-z0-9 ]`; nor are whitespace runs collapsed or ends trimmed. -/
theorem claim7_counterexample :
    clean_text "a\tb" = "a\tb" ∧
    ((clean_text "a\tb").data.all claimCharOk) = false ∧
    clean_text " a  b " = " a  b " := by
  exact ⟨by decide, by decide, by decide⟩

/-- C7 (amended): every character of `clean_text t` is alphanumeric or
whitespace (punctuation is replaced by a space), but whitespace characters
other than the plain space survive verbatim, and runs are neither
collapsed nor trimmed. -/
theorem clean_text_chars_alnum_or_ws (t : String) :
    (clean_text t).data.all (fun c => pyIsAlnum c || pyIsSpace c) = true := by
  simp only [clean_text, List.all_eq_true]
  intro c hc
  rcases List.mem_map.mp (by simpa using hc) with ⟨a, _, rfl⟩
  by_cases h : pyIsAlnum a = true ∨ pyIsSpace a = true
  · rw [if_pos h]
    rcases h with h | h <;> simp [h]
  · rw [if_neg h]
    decide

/-! ## Claim C8 — per-file fault isolation in the dispatcher -/

/-- C8: a file whose open/read raises contributes an empty record list,
and the records of every other file in the batch are unchanged: the batch
result is exactly the concatenation of the sibling results. -/
theorem worker_error_isolated (pre post : List FileInput) (kws : List String) (c : Nat) :
    process_files_parallel kws c (pre ++ (none : FileInput) :: post) =
      process_files_parallel kws c pre ++ process_files_parallel kws c post ∧
    process_file_chunk kws c (none : FileInput) = [] := by
  constructor
  · simp [process_files_parallel, process_file_chunk]
  · rfl

/-! ## Claim C9 — deterministic ordered flattening of the dispatch -/

/-- C9: the dispatcher's flattened output is exactly the concatenation of
the per-file record lists in the order the file paths were given
(`pool.map` preserves input order), and within each file the records
follow source line order (the decodable lines, processed in sequence). -/
theorem dispatch_ordered_deterministic (files : List FileInput) (kws : List String) (c : Nat) :
    process_files_parallel kws c files =
      (files.map (fun f =>
        match f with
        | none => []
        | some lines => (lineDocs lines).filterMap (fun v => process_document v kws))).flatten := by
  unfold process_files_parallel
  congr 1
  apply List.map_congr_left
  intro f _
  cases f with
  | none => rfl
  | some lines =>
    simpa [process_file_chunk, processChunkList] using processFileContents_eq kws c lines

/-! ## Analyzer helper lemmas -/

/-- Filtering on a key that occurs at most once (dates are nodup) yields
the `find?` result as a singleton or nothing. -/
theorem filter_date_eq_find (colcap : List ColRow) (d : String)
    (hnd : (colcap.map (fun c => c.date)).Nodup) :
    colcap.filter (fun c => c.date == d) =
      (match colcap.find? (fun c => c.date == d) with
       | none => []
       | some m => [m]) := by
  induction colcap with
  | nil => rfl
  | cons c rest ih =>
    simp only [List.map_cons, List.nodup_cons] at hnd
    obtain ⟨hnotin, hrest⟩ := hnd
    by_cases hp : (c.date == d) = true
    · have hrestnil : rest.filter (fun x => x.date == d) = [] := by
        apply List.filter_eq_nil_iff.mpr
        intro a ha hpa
        have had : a.date = d := by simpa using hpa
        have hcd : c.date = d := by simpa using hp
        exact hnotin (List.mem_map.mpr ⟨a, ha, by rw [had, hcd]⟩)
      simp only [List.filter_cons, List.find?_cons, hp, if_true, hrestnil]
    · have hp2 : (c.date == d) = false := by simpa using hp
      simp only [List.filter_cons, List.find?_cons, hp2, if_false]
      exact ih hrest

/-- The left merge with a duplicate-free external series, row by row. -/
theorem leftMergeRows_eq (colcap : List ColRow)
    (hnd : (colcap.map (fun c => c.date)).Nodup) (agg : List AggRow) :
    leftMergeRows agg colcap =
      agg.map (fun a =>
        { date := a.date, docs_count := a.docs_count,
          total_keyword_hits := a.total_keyword_hits,
          colcap_close := (colcap.find? (fun c => c.date == a.date)).map
            (fun m => m.colcap_close) }) := by
  induction agg with
  | nil => rfl
  | cons a rest ih =>
    simp only [leftMergeRows, List.flatMap_cons, List.map_cons] at ih ⊢
    rw [filter_date_eq_find colcap a.date hnd]
    cases hf : colcap.find? (fun c => c.date == a.date) with
    | none => simpa [hf] using ih
    | some m => simpa [hf] using ih

/-- Evaluation of `merge_with_colcap` in left mode, row by row, for a duplicate-free
external series (covers the empty-aggregate and empty-series branches,
where `find?` on the empty list is `none`). -/
theorem merge_with_colcap_rows_eq (agg : List AggRow) (colcap : List ColRow)
    (hnd : (colcap.map (fun c => c.date)).Nodup) :
    (merge_with_colcap agg colcap).rows =
      agg.map (fun a =>
        { date := a.date, docs_count := a.docs_count,
          total_keyword_hits := a.total_keyword_hits,
          colcap_close := (colcap.find? (fun c => c.date == a.date)).map
            (fun m => m.colcap_close) }) := by
  unfold merge_with_colcap
  by_cases hA : agg.isEmpty
  · rw [if_pos hA]
    have : agg = [] := List.isEmpty_iff.mp hA
    subst this
    rfl
  · rw [if_neg hA]
    by_cases hC : colcap.isEmpty
    · rw [if_pos hC]
      have : colcap = [] := List.isEmpty_iff.mp hC
      subst this
      rfl
    · rw [if_neg hC]
      exact leftMergeRows_eq colcap hnd agg

/-! ## Claim C6 — left merge preserves aggregate dates -/

/-- C6: with unique aggregate dates and an external series holding at most
one point per date, the left merge emits exactly one row per aggregate row
in order (no date dropped, duplicated, or introduced), the output dates
stay unique, and `colcap_close` is null exactly when the date is absent
from the external series. -/
theorem merge_left_preserves_agg_dates (agg : List AggRow) (ext : List ColRow)
    (hagg : (agg.map (fun a => a.date)).Nodup)
    (hext : (ext.map (fun c => c.date)).Nodup) :
    (merge_with_colcap agg ext).rows =
      agg.map (fun a =>
        ({ date := a.date, docs_count := a.docs_count,
           total_keyword_hits := a.total_keyword_hits,
           colcap_close := (ext.find? (fun c => c.date == a.date)).map
             (fun m => m.colcap_close) } : MergedRow)) ∧
    ((merge_with_colcap agg ext).rows.map (fun r => r.date)).Nodup ∧
    ∀ r ∈ (merge_with_colcap agg ext).rows,
      (r.colcap_close = none ↔ r.date ∉ ext.map (fun c => c.date)) := by
  have heq := merge_with_colcap_rows_eq agg ext hext
  refine ⟨heq, ?_, ?_⟩
  · rw [heq, List.map_map]
    simpa using hagg
  · intro r hr
    rw [heq] at hr
    rcases List.mem_map.mp hr with ⟨a, _, rfl⟩
    constructor
    · intro hnone hmem
      have hfind : ext.find? (fun c => c.date == a.date) = none :=
        Option.map_eq_none'.mp hnone
      rcases List.mem_map.mp hmem with ⟨c, hc, hcd⟩
      have := List.find?_eq_none.mp hfind c hc
      simp [hcd] at this
    · intro hnot
      have hfind : ext.find? (fun c => c.date == a.date) = none := by
        apply List.find?_eq_none.mpr
        intro c hc hbeq
        exact hnot (List.mem_map.mpr ⟨c, hc, by simpa using hbeq⟩)
      simp [hfind]

/-- Witness for C6 at a two-day aggregate and a one-point external
series. -/
theorem merge_left_preserves_agg_dates_witness :
    (merge_with_colcap
        [{ date := "2024-01-01", docs_count := 2, total_keyword_hits := 3 },
         { date := "2024-01-02", docs_count := 1, total_keyword_hits := 0 }]
        [{ date := "2024-01-02", colcap_close := 55 }]).rows =
      ([{ date := "2024-01-01", docs_count := 2, total_keyword_hits := 3 },
        { date := "2024-01-02", docs_count := 1, total_keyword_hits := 0 }] : List AggRow).map (fun a =>
        ({ date := a.date, docs_count := a.docs_count,
           total_keyword_hits := a.total_keyword_hits,
           colcap_close := (([{ date := "2024-01-02", colcap_close := 55 }] : List ColRow).find?
             (fun c => c.date == a.date)).map (fun m => m.colcap_close) } : MergedRow)) :=
  (merge_left_preserves_agg_dates _ _ (by decide) (by decide)).1

/-! ## Claim C10 — empty external series -/

/-- C10: with an empty external series, `merge_with_colcap` returns the
daily aggregate unchanged and adds no `colcap_close` column, and
`calculate_metrics` on that result omits every correlation and
external-series key while still producing the document/keyword totals. -/
theorem empty_external_series_behaviour (agg : List AggRow) (hne : agg ≠ []) :
    (merge_with_colcap agg []).hasColcap = false ∧
    (merge_with_colcap agg []).rows =
      agg.map (fun a =>
        ({ date := a.date, docs_count := a.docs_count,
           total_keyword_hits := a.total_keyword_hits,
           colcap_close := none } : MergedRow)) ∧
    (calculate_metrics (merge_with_colcap agg [])).correlation_keywords_colcap = none ∧
    (calculate_metrics (merge_with_colcap agg [])).average_colcap = none ∧
    (calculate_metrics (merge_with_colcap agg [])).colcap_min = none ∧
    (calculate_metrics (merge_with_colcap agg [])).colcap_max = none ∧
    (calculate_metrics (merge_with_colcap agg [])).days_with_colcap = none ∧
    (calculate_metrics (merge_with_colcap agg [])).total_documents =
      some ((agg.map (fun a => a.docs_count)).sum) ∧
    (calculate_metrics (merge_with_colcap agg [])).total_keywords =
      some ((agg.map (fun a => a.total_keyword_hits)).sum) ∧
    (calculate_metrics (merge_with_colcap agg [])).days_analyzed = some agg.length := by
  have hA : agg.isEmpty = false := by
    cases agg with
    | nil => exact absurd rfl hne
    | cons a l => rfl
  have hmerge : merge_with_colcap agg [] =
      { hasColcap := false
        rows := agg.map (fun a =>
          ({ date := a.date, docs_count := a.docs_count,
             total_keyword_hits := a.total_keyword_hits,
             colcap_close := none } : MergedRow)) } := by
    unfold merge_with_colcap
    rw [hA]
    rfl
  have hrowsE : (merge_with_colcap agg []).rows.isEmpty = false := by
    rw [hmerge]
    cases agg with
    | nil => exact absurd rfl hne
    | cons a l => rfl
  have hcalc :
      calculate_metrics (merge_with_colcap agg []) =
        { total_documents :=
            some (((merge_with_colcap agg []).rows.map (fun r => r.docs_count)).sum)
          total_keywords :=
            some (((merge_with_colcap agg []).rows.map (fun r => r.total_keyword_hits)).sum)
          date_range :=
            match ((merge_with_colcap agg []).rows.map (fun r => r.date)).min?,
                ((merge_with_colcap agg []).rows.map (fun r => r.date)).max? with
            | some lo, some hi => some (lo, hi)
            | _, _ => none
          days_analyzed := some (merge_with_colcap agg []).rows.length
          average_docs_per_day :=
            some (listMean ((merge_with_colcap agg []).rows.map (fun r => (r.docs_count : Rat))))
          average_keywords_per_day :=
            some (listMean ((merge_with_colcap agg []).rows.map (fun r => (r.total_keyword_hits : Rat))))
          correlation_keywords_colcap := none, average_colcap := none,
          colcap_min := none, colcap_max := none, days_with_colcap := none } := by
    unfold calculate_metrics
    rw [hrowsE]
    have : (merge_with_colcap agg []).hasColcap = false := by rw [hmerge]
    rw [this]
    rfl
  refine ⟨by rw [hmerge], by rw [hmerge], ?_, ?_, ?_, ?_, ?_, ?_, ?_, ?_⟩
  · rw [hcalc]
  · rw [hcalc]
  · rw [hcalc]
  · rw [hcalc]
  · rw [hcalc]
  · rw [hcalc, hmerge]
    simp only [List.map_map]
    rfl
  · rw [hcalc, hmerge]
    simp only [List.map_map]
    rfl
  · rw [hcalc, hmerge]
    simp

/-- Witness for C10 at a one-day aggregate. -/
theorem empty_external_series_behaviour_witness :
    (calculate_metrics (merge_with_colcap
        [{ date := "2024-01-01", docs_count := 2, total_keyword_hits := 3 }]
        [])).correlation_keywords_colcap = none ∧
    (calculate_metrics (merge_with_colcap
        [{ date := "2024-01-01", docs_count := 2, total_keyword_hits := 3 }]
        [])).total_documents = some 2 ∧
    (merge_with_colcap
        [{ date := "2024-01-01", docs_count := 2, total_keyword_hits := 3 }]
        []).hasColcap = false := by
  obtain ⟨h1, -, h3, -, -, -, -, h8, -, -⟩ :=
    empty_external_series_behaviour
      [{ date := "2024-01-01", docs_count := 2, total_keyword_hits := 3 }] (by decide)
  exact ⟨h3, by simpa using h8, h1⟩

/-! ## Claim C2 — correlation reporting -/

/-- C2 (counterexample): on merged rows whose external series has zero
variance (both rows carry close value 5) and two valid rows, the report
contains the correlation key with the float value `0.0` — the NaN
produced by the library is silently replaced by `0.0` — so the report
does not distinguish an undefined correlation from a computed zero. -/
theorem claim2_counterexample :
    (calculate_metrics
        { hasColcap := true,
          rows := [{ date := "2024-01-01", docs_count := 1, total_keyword_hits := 1,
                     colcap_close := some 5 },
                   { date := "2024-01-02", docs_count := 1, total_keyword_hits := 2,
                     colcap_close := some 5 }] }).correlation_keywords_colcap =
      some CorrFloat.nanAsZero := by
  norm_num [calculate_metrics, reportedCorrelation, sqDev, listMean,
    List.filter, List.filterMap]

/-- C2 (amended): when fewer than two merged rows carry a non-null close
value the correlation key is absent from the report (as the claim says);
but when at least two remain and either paired series has zero variance,
the library's NaN is replaced by the float `0.0` and reported under the
correlation key, so the zero-variance case is not reported as
absent/undefined. -/
theorem correlation_reporting :
    (∀ df : MergedDF,
      (df.rows.filter (fun r => r.colcap_close.isSome)).length < 2 →
      (calculate_metrics df).correlation_keywords_colcap = none) ∧
    (∀ df : MergedDF,
      df.hasColcap = true →
      2 ≤ (df.rows.filter (fun r => r.colcap_close.isSome)).length →
      sqDev ((df.rows.filter (fun r => r.colcap_close.isSome)).map
          (fun r => (r.total_keyword_hits : Rat))) *
        sqDev ((df.rows.filter (fun r => r.colcap_close.isSome)).filterMap
          (fun r => r.colcap_close)) = 0 →
      (calculate_metrics df).correlation_keywords_colcap = some CorrFloat.nanAsZero) := by
  constructor
  · intro df hlt
    unfold calculate_metrics
    by_cases hE : df.rows.isEmpty
    · rw [if_pos hE]
      rfl
    · rw [if_neg hE]
      by_cases hcol : df.hasColcap = true
      · simp only [hcol, if_true]
        rw [if_neg (by omega)]
      · simp only [hcol, if_false]
        rfl
  · intro df hcol h2 hz
    have hE : df.rows.isEmpty = false := by
      cases hrows : df.rows with
      | nil =>
        rw [hrows] at h2
        simp at h2
      | cons a l => rfl
    unfold calculate_metrics
    rw [hE]
    simp only [hcol, if_true, Bool.false_eq_true, if_false]
    rw [if_pos h2]
    simp only [reportedCorrelation, hz]
    rfl

/-- Witness for C2: a single valid row gives an absent correlation key;
two valid rows with identical close values give the reported `0.0`. -/
theorem correlation_reporting_witness :
    (calculate_metrics
        { hasColcap := true,
          rows := [{ date := "2024-03-01", docs_count := 1, total_keyword_hits := 4,
                     colcap_close := some 9 }] }).correlation_keywords_colcap = none ∧
    (calculate_metrics
        { hasColcap := true,
          rows := [{ date := "2024-03-01", docs_count := 1, total_keyword_hits := 1,
                     colcap_close := some 7 },
                   { date := "2024-03-02", docs_count := 2, total_keyword_hits := 3,
                     colcap_close := some 7 }] }).correlation_keywords_colcap =
      some CorrFloat.nanAsZero :=
  ⟨correlation_reporting.1 _ (by decide),
   correlation_reporting.2 _ rfl (by decide)
     (by norm_num [sqDev, listMean, List.filter, List.filterMap])⟩

/-! ## Claim C4 — the daily aggregator -/

/-- Applying `filterMap` over a list on which the partial function is everywhere
defined keeps the length. -/
theorem length_filterMap_of_all_isSome {α β : Type} (f : α → Option β) (l : List α)
    (h : ∀ a ∈ l, (f a).isSome = true) : (l.filterMap f).length = l.length := by
  induction l with
  | nil => rfl
  | cons a l ih =>
    rw [List.filterMap_cons]
    rcases hfa : f a with _ | b
    · exact absurd (h a (List.mem_cons_self a l)) (by simp [hfa])
    · simp only [List.length_cons]
      rw [ih (fun x hx => h x (List.mem_cons_of_mem a hx))]

/-- The multiplicity of a date among the extracted date column equals the
number of rows carrying that date. -/
theorem count_date_eq_filter_length (rows : List ARow) (d : String) :
    (rows.filterMap (fun r => r.date)).count d =
      (rows.filter (fun r => r.date == some d)).length := by
  rw [List.count_filterMap, List.countP_eq_length_filter]

/-- The group keys of the aggregator are sorted ascending. -/
theorem sortedDates_sorted (rows : List ARow) :
    List.Sorted (· ≤ ·) (sortedDates rows) := by
  unfold sortedDates
  exact List.Pairwise.sublist (List.dedup_sublist _)
    (List.sorted_insertionSort (· ≤ ·) (rows.filterMap (fun r : ARow => r.date)))

/-- The group keys of the aggregator are duplicate-free. -/
theorem sortedDates_nodup (rows : List ARow) : (sortedDates rows).Nodup :=
  List.nodup_dedup _

/-- A date is a group key exactly when some row carries it. -/
theorem mem_sortedDates (rows : List ARow) (d : String) :
    d ∈ sortedDates rows ↔ some d ∈ rows.map (fun r => r.date) := by
  unfold sortedDates
  rw [List.mem_dedup, (List.perm_insertionSort (· ≤ ·) _).mem_iff, List.mem_filterMap]
  constructor
  · rintro ⟨r, hr, hrd⟩
    exact List.mem_map.mpr ⟨r, hr, hrd⟩
  · intro h
    rcases List.mem_map.mp h with ⟨r, hr, hrd⟩
    exact ⟨r, hr, hrd⟩

/-- The sorted deduplicated key list is invariant under permutation of the
input rows. -/
theorem sortedDates_perm_inv (rows rows2 : List ARow) (h : rows.Perm rows2) :
    sortedDates rows = sortedDates rows2 := by
  unfold sortedDates
  have h2 : (rows.filterMap (fun r => r.date)).Perm (rows2.filterMap (fun r => r.date)) :=
    h.filterMap _
  have hp : (List.insertionSort (· ≤ ·) (rows.filterMap (fun r => r.date))).Perm
      (List.insertionSort (· ≤ ·) (rows2.filterMap (fun r => r.date))) :=
    ((List.perm_insertionSort _ _).trans h2).trans (List.perm_insertionSort _ _).symm
  rw [List.eq_of_perm_of_sorted hp (List.sorted_insertionSort _ _)
    (List.sorted_insertionSort _ _)]

/-- C4: the aggregator emits exactly one row per distinct date, sorted
ascending; with well-formed records (non-null date and doc_id, as the
processed table provides) each row's `docs_count` is the number of records
of that date and `total_keyword_hits` their summed hits; the output is
invariant under permutation of the input; the `docs_count` column sums to
the number of input records; and empty input yields empty output. -/
theorem aggregate_by_date_correct (rows rows2 : List ARow)
    (hperm : rows.Perm rows2)
    (hdate : ∀ r ∈ rows, (r.date).isSome = true)
    (hid : ∀ r ∈ rows, (r.doc_id).isSome = true) :
    ((aggregate_by_date rows).map (fun g => g.date)).Nodup ∧
    List.Sorted (· ≤ ·) ((aggregate_by_date rows).map (fun g => g.date)) ∧
    (∀ d, d ∈ (aggregate_by_date rows).map (fun g => g.date) ↔
      some d ∈ rows.map (fun r => r.date)) ∧
    (∀ g ∈ aggregate_by_date rows,
      g.docs_count = (rows.filter (fun r => r.date == some g.date)).length ∧
      g.total_keyword_hits =
        ((rows.filter (fun r => r.date == some g.date)).map (fun r => r.keyword_hits)).sum) ∧
    aggregate_by_date rows2 = aggregate_by_date rows ∧
    ((aggregate_by_date rows).map (fun g => g.docs_count)).sum = rows.length ∧
    aggregate_by_date ([] : List ARow) = [] := by
  have hinner : ∀ d, (rows.filter (fun r => r.date == some d)).filter
      (fun r => r.doc_id.isSome) = rows.filter (fun r => r.date == some d) := by
    intro d
    apply List.filter_eq_self.mpr
    intro a ha
    exact hid a (List.mem_filter.mp ha).1
  have hmapdate : (aggregate_by_date rows).map (fun g => g.date) = sortedDates rows := by
    unfold aggregate_by_date
    rw [List.map_map]
    exact List.map_id _
  refine ⟨?_, ?_, ?_, ?_, ?_, ?_, rfl⟩
  · rw [hmapdate]
    exact sortedDates_nodup rows
  · rw [hmapdate]
    exact sortedDates_sorted rows
  · intro d
    rw [hmapdate]
    exact mem_sortedDates rows d
  · intro g hg
    unfold aggregate_by_date at hg
    rcases List.mem_map.mp hg with ⟨d, _, rfl⟩
    exact ⟨by rw [hinner d], rfl⟩
  · have hsd := sortedDates_perm_inv rows rows2 hperm
    unfold aggregate_by_date
    rw [← hsd]
    apply List.map_congr_left
    intro d _
    have hf : (rows2.filter (fun r => r.date == some d)).Perm
        (rows.filter (fun r => r.date == some d)) :=
      (hperm.symm).filter _
    have h1 : ((rows2.filter (fun r => r.date == some d)).filter
        (fun r => r.doc_id.isSome)).length =
        ((rows.filter (fun r => r.date == some d)).filter
          (fun r => r.doc_id.isSome)).length :=
      (hf.filter _).length_eq
    have h2 : ((rows2.filter (fun r => r.date == some d)).map
        (fun r => r.keyword_hits)).sum =
        ((rows.filter (fun r => r.date == some d)).map (fun r => r.keyword_hits)).sum :=
      (hf.map _).sum_eq
    rw [AggRow.mk.injEq]
    exact ⟨rfl, h1, h2⟩
  · unfold aggregate_by_date
    rw [List.map_map]
    have hpt : ∀ d ∈ sortedDates rows,
        ((fun g => AggRow.docs_count g) ∘ fun d =>
          ({ date := d,
             docs_count := ((rows.filter (fun r => r.date == some d)).filter
               (fun r => r.doc_id.isSome)).length,
             total_keyword_hits := ((rows.filter (fun r => r.date == some d)).map
               (fun r => r.keyword_hits)).sum } : AggRow)) d =
          (rows.filterMap (fun r => r.date)).count d := by
      intro d _
      show ((rows.filter (fun r => r.date == some d)).filter
          (fun r => r.doc_id.isSome)).length = _
      rw [hinner d, ← count_date_eq_filter_length]
    rw [List.map_congr_left hpt]
    have hperm2 : (sortedDates rows).Perm ((rows.filterMap (fun r => r.date)).dedup) :=
      (List.perm_insertionSort (· ≤ ·) _).dedup
    calc ((sortedDates rows).map (fun d => (rows.filterMap (fun r => r.date)).count d)).sum
        = (((rows.filterMap (fun r => r.date)).dedup).map
            (fun d => (rows.filterMap (fun r => r.date)).count d)).sum :=
          (hperm2.map _).sum_eq
      _ = (rows.filterMap (fun r => r.date)).length :=
          List.sum_map_count_dedup_eq_length _
      _ = rows.length := length_filterMap_of_all_isSome _ rows hdate

/-- Witness for C4 on three concrete records over two dates, against a
permutation of the same records. -/
theorem aggregate_by_date_correct_witness :
    aggregate_by_date
        ([{ date := some "2024-01-01", doc_id := some "c", keyword_hits := 2 },
          { date := some "2024-01-01", doc_id := some "b", keyword_hits := 1 },
          { date := some "2024-01-02", doc_id := some "a", keyword_hits := 3 }] : List ARow) =
      aggregate_by_date
        ([{ date := some "2024-01-02", doc_id := some "a", keyword_hits := 3 },
          { date := some "2024-01-01", doc_id := some "b", keyword_hits := 1 },
          { date := some "2024-01-01", doc_id := some "c", keyword_hits := 2 }] : List ARow) ∧
    ((aggregate_by_date
        ([{ date := some "2024-01-02", doc_id := some "a", keyword_hits := 3 },
           { date := some "2024-01-01", doc_id := some "b", keyword_hits := 1 },
           { date := some "2024-01-01", doc_id := some "c", keyword_hits := 2 }] : List ARow)).map
      (fun g => g.docs_count)).sum = 3 := by
  obtain ⟨-, -, -, -, h5, h6, -⟩ :=
    aggregate_by_date_correct
      ([{ date := some "2024-01-02", doc_id := some "a", keyword_hits := 3 },
        { date := some "2024-01-01", doc_id := some "b", keyword_hits := 1 },
        { date := some "2024-01-01", doc_id := some "c", keyword_hits := 2 }] : List ARow)
      ([{ date := some "2024-01-01", doc_id := some "c", keyword_hits := 2 },
        { date := some "2024-01-01", doc_id := some "b", keyword_hits := 1 },
        { date := some "2024-01-02", doc_id := some "a", keyword_hits := 3 }] : List ARow)
      (by decide) (by decide) (by decide)
  exact ⟨h5, h6⟩
